import Mathlib

/-!
Verification of the caption-resolution pipeline of `src/app.py` (a Flask
service around the `youtube_transcript_api` collaborator).  Strings are
modelled as `List Char`; Python floats as `ℚ`; Python exceptions as
explicit error values (`Except`/inductive error types).  Each definition
is a direct translation of the corresponding Python function; external
library behaviour (`urllib.parse`, Python `str`/`list`/`round`
semantics) is modelled from the documented semantics of those functions,
restricted to the value ranges the claims exercise (noted at each
definition).
-/

namespace CapGrab

abbrev Str := List Char

instance {ε α : Type} [DecidableEq ε] [DecidableEq α] : DecidableEq (Except ε α)
  | .ok a, .ok b =>
    if h : a = b then isTrue (by rw [h]) else isFalse (by simp [h])
  | .ok _, .error _ => isFalse (by simp)
  | .error _, .ok _ => isFalse (by simp)
  | .error a, .error b =>
    if h : a = b then isTrue (by rw [h]) else isFalse (by simp [h])

/-! ## Basic string helpers -/

/-- If `p` is a (character-wise) leading substring of `s`, return the rest of
`s`; otherwise `none`.  Used to model anchored literal matching of the
regular expressions in `extract_video_id`. -/
def dropLit : Str → Str → Option Str
  | [], s => some s
  | _ :: _, [] => none
  | a :: p, b :: s => if a = b then dropLit p s else none

/-- Split at the first occurrence of character `k`: `some (before, after)`
when `k` occurs, `none` otherwise.  Models Python `str.find`, and
`str.split(k, 1)` when the result is `some`. -/
def splitAtChar (k : Char) : Str → Option (Str × Str)
  | [] => none
  | a :: rest =>
    if a = k then some ([], rest)
    else (splitAtChar k rest).map (fun p => (a :: p.1, p.2))

/-- Split at the first `k` if present, keeping everything otherwise
(the `url, sep, rest` idiom of `urllib.parse`). -/
def splitOpt (k : Char) (s : Str) : Str × Str :=
  match splitAtChar k s with
  | none => (s, [])
  | some (a, b) => (a, b)

/-- Python `str.split(k)`: split on every occurrence of `k`, keeping empty
pieces (`"a&&b".split("&") == ["a","","b"]`, `"".split("&") == [""]`). -/
def pySplit (k : Char) : Str → List Str
  | [] => [[]]
  | c :: rest =>
    let r := pySplit k rest
    if c = k then [] :: r
    else
      match r with
      | [] => [[c]]
      | x :: xs => (c :: x) :: xs

def hexVal (c : Char) : Option Nat :=
  if '0' ≤ c ∧ c ≤ '9' then some (c.toNat - '0'.toNat)
  else if 'a' ≤ c ∧ c ≤ 'f' then some (c.toNat - 'a'.toNat + 10)
  else if 'A' ≤ c ∧ c ≤ 'F' then some (c.toNat - 'A'.toNat + 10)
  else none

/-- One chunk of Python `urllib.parse.unquote`: the text following a `%`.
If it starts with two hex digits they are decoded, otherwise the `%` is
kept literally. -/
def pctChunk (chunk : Str) : Str :=
  match chunk with
  | a :: b :: rest =>
    (match hexVal a, hexVal b with
     | some x, some y => Char.ofNat (16 * x + y) :: rest
     | _, _ => '%' :: chunk)
  | _ => '%' :: chunk

/-- Python `urllib.parse.unquote`, modelled byte-wise: split on `%` and
decode each following chunk.  (Multi-byte UTF-8 sequences re-assembled by
the real function are out of scope; the inputs exercised here are
ASCII.) -/
def unquote (s : Str) : Str :=
  match pySplit '%' s with
  | [] => []
  | first :: chunks => first ++ (chunks.map pctChunk).flatten

/-- Python `urllib.parse.unquote_plus`: `+` becomes a space, then
percent-decoding. -/
def unquote_plus (s : Str) : Str :=
  unquote (s.map (fun c => if c = '+' then ' ' else c))

/-- Python `pat in s` (substring containment). -/
def hasSub (pat : Str) : Str → Bool
  | [] => pat.isEmpty
  | c :: rest => (dropLit pat (c :: rest)).isSome || hasSub pat rest

/-- ASCII whitespace stripped by Python `str.strip()` (the claims only
exercise ASCII text). -/
def pySpace (c : Char) : Bool :=
  c == ' ' || c == '\t' || c == '\n' || c == '\r' || c == '\x0b' || c == '\x0c'

/-- Python `str.strip()`. -/
def strip (s : Str) : Str :=
  ((s.dropWhile pySpace).reverse.dropWhile pySpace).reverse

/-- Python `"\n".join(lines)`. -/
def joinNL : List Str → Str
  | [] => []
  | [x] => x
  | x :: y :: rest => x ++ '\n' :: joinNL (y :: rest)

/-- Python `f"{n:0wd}"` zero-padding (for the non-negative values produced
by `fmt_time` on the non-negative offsets the claims quantify over). -/
def padNum (w : Nat) (n : ℤ) : Str :=
  let s := (toString n).toList
  List.replicate (w - s.length) '0' ++ s

/-- Case-insensitive equality of language codes (`lower()` comparison). -/
def lowerEq (a b : Str) : Bool :=
  a.map Char.toLower == b.map Char.toLower

/-! ## Identifier Extractor (`extract_video_id`, src/app.py lines 21-39) -/

/-- The excluded set of the capture groups `[^?&#/]` (short link) and
`[^/?&#]` (embed path) in `extract_video_id`. -/
def shortExcl (c : Char) : Bool :=
  c == '?' || c == '&' || c == '#' || c == '/'

/-- The optional `(?:www\.)?` part of the short-link regular expression:
drop a leading `www.` when present. -/
def wwwDrop (r : Str) : Str :=
  match dropLit (("www.").toList) r with
  | some t => t
  | none => r

/-- The non-empty greedy capture `([^?&#/]+)`. -/
def shortCapture (t : Str) : Option Str :=
  let run := t.takeWhile (fun c => !shortExcl c)
  if run.isEmpty then none else some run

/-- The part of the short-link regular expression after the scheme:
optional `www.`, then the literal `youtu.be/`, then the capture. -/
def shortTail (r : Str) : Option Str :=
  match dropLit (("youtu.be/").toList) (wwwDrop r) with
  | none => none
  | some t => shortCapture t

/-- `re.match(r'^https?://(?:www\.)?youtu\.be/([^?&#/]+)', url)`, returning
the capture group (`https://` and `http://` are the two alternatives of
`https?://`; a string cannot start with both). -/
def shortMatch (url : Str) : Option Str :=
  match dropLit (("https://").toList) url with
  | some r => shortTail r
  | none =>
    match dropLit (("http://").toList) url with
    | some r => shortTail r
    | none => none

def schemeChar (c : Char) : Bool :=
  c.isAlphanum || c == '+' || c == '-' || c == '.'

def schemeOk : Str → Bool
  | [] => false
  | c :: rest => c.isAlpha && rest.all schemeChar

/-- The scheme-splitting step of Python `urllib.parse.urlsplit`: split at
the first `:` when the part before it is a valid scheme. -/
def schemeSplit (url : Str) : Str × Str :=
  match splitAtChar ':' url with
  | none => ([], url)
  | some (a, b) => if schemeOk a then (a.map Char.toLower, b) else ([], url)

def netChar (c : Char) : Bool := !(c == '/' || c == '?' || c == '#')

/-- The netloc-splitting step of `urlsplit`: when the remainder starts with
`//`, the netloc runs to the next `/`, `?` or `#`. -/
def netlocSplit (s : Str) : Str × Str :=
  match s with
  | a :: b :: rest =>
    if a = '/' ∧ b = '/' then (rest.takeWhile netChar, rest.dropWhile netChar)
    else ([], s)
  | _ => ([], s)

structure UrlParts where
  scheme : Str
  netloc : Str
  path : Str
  query : Str
  fragment : Str
deriving DecidableEq

/-- Python `urllib.parse.urlparse` (urlsplit semantics: scheme, then
netloc, then fragment at the first `#`, then query at the first `?`; the
`params` component, empty for every input exercised here because none has
a `;` in its path, is not consulted by `extract_video_id`). -/
def urlparse (url : Str) : UrlParts :=
  let sp := schemeSplit url
  let np := netlocSplit sp.2
  let fp := splitOpt '#' np.2
  let qp := splitOpt '?' fp.1
  ⟨sp.1, np.1, qp.1, qp.2, fp.2⟩

/-- One `name=value` field of a query string, as handled by Python
`urllib.parse.parse_qsl` with default arguments: empty fields, fields
without `=` and fields with an empty value are skipped; names and values
are percent-decoded. -/
def qslField (nv : Str) : Option (Str × Str) :=
  if nv.isEmpty then none
  else
    match splitAtChar '=' nv with
    | none => none
    | some (n, v) =>
      if v.isEmpty then none else some (unquote_plus n, unquote_plus v)

/-- Python `urllib.parse.parse_qsl` with default arguments: split the query
on `&` and process each field. -/
def parse_qsl (qs : Str) : List (Str × Str) :=
  (pySplit '&' qs).filterMap qslField

/-- `re.match(r'^/embed/([^/?&#]+)', parsed.path)`, returning the capture
group. -/
def embedMatch (path : Str) : Option Str :=
  match dropLit (("/embed/").toList) path with
  | none => none
  | some t =>
    let run := t.takeWhile (fun c => !shortExcl c)
    if run.isEmpty then none else some run

def idChar (c : Char) : Bool := c.isAlphanum || c == '_' || c == '-'

/-- Exactly 11 characters from `[A-Za-z0-9_-]` — the spec's VideoId shape,
and the domain of the claims about well-formed identifiers. -/
def isCleanId (s : Str) : Bool := s.length == 11 && s.all idChar

/-- `re.match(r'^[A-Za-z0-9_-]{11}$', url)`: eleven class characters
anchored at the start, then `$` — which in Python (without `re.MULTILINE`)
matches at the end of the string or just before one trailing newline.
The rule therefore also accepts an 11-character id followed by a single
`'\n'` (and nothing else after it). -/
def bareId (s : Str) : Bool :=
  isCleanId (s.take 11) && (s.drop 11 == ([] : Str) || s.drop 11 == ['\n'])

def errNoId : Str := ("Could not extract a valid YouTube video ID from the URL.").toList

/-- `extract_video_id` (src/app.py lines 21-39): short-link rule, then for
a `youtube.com` host the `/watch` query rule and the `/embed/` rule, then
the bare-id rule; otherwise `ValueError`. -/
def extract_video_id (url : Str) : Except Str Str :=
  match shortMatch url with
  | some v => .ok v
  | none =>
    let p := urlparse url
    let watchV : Option Str :=
      if ("youtube.com").toList.isSuffixOf p.netloc then
        if p.path = ("/watch").toList then
          match (parse_qsl p.query).find? (fun pr => pr.1 == ("v").toList) with
          | some pr => some pr.2
          | none => none
        else none
      else none
    match watchV with
    | some v => .ok v
    | none =>
      let embV : Option Str :=
        if ("youtube.com").toList.isSuffixOf p.netloc then embedMatch p.path
        else none
      match embV with
      | some v => .ok v
      | none => if bareId url then .ok url else .error errNoId

/-! ## Source Adapter detection (`detect_api_mode`, src/app.py lines 41-56) -/

/-- Exceptions the collaborator's constructor may raise, split exactly as
the code's handlers split them: `TypeError` (caught by the first probe)
versus anything else. -/
inductive PyRaise
  | typeErr
  | otherErr
deriving DecidableEq

/-- The object produced by a successful `YouTubeTranscriptApi()`
construction: whether it has `list` and `fetch` attributes. -/
structure Inst where
  hasList : Bool
  hasFetch : Bool
deriving DecidableEq

/-- One deterministic behaviour of the caption-source collaborator's
surface: the (repeatable) outcome of constructing it, and which static
attributes the class exposes. -/
structure ApiSurface where
  ctor : Except PyRaise Inst
  hasListTranscriptsAttr : Bool
  hasGetTranscriptAttr : Bool
deriving DecidableEq

inductive Mode
  | new
  | old
deriving DecidableEq

/-- `detect_api_mode` (src/app.py lines 41-56).  The first probe constructs
the client inside `try ... except TypeError`; a constructor failure other
than `TypeError` is therefore not caught and propagates (modelled as
`.error`).  The second probe checks the static attributes; the third
retries construction under `except Exception`. -/
def detect_api_mode (a : ApiSurface) : Except PyRaise Mode :=
  let probe2 : Except PyRaise Mode :=
    if a.hasListTranscriptsAttr || a.hasGetTranscriptAttr then .ok .old
    else
      match a.ctor with
      | .ok _ => .ok .new
      | .error _ => .ok .old
  match a.ctor with
  | .ok inst => if inst.hasList && inst.hasFetch then .ok .new else probe2
  | .error .typeErr => probe2
  | .error .otherErr => .error .otherErr

/-! ## Renderer (`fmt_time` and `join_items_raw`, src/app.py lines 58-74) -/

/-- Python `int()` on a real value: truncation toward zero.  Offsets are
modelled as exact rationals. -/
def intPy (q : ℚ) : ℤ := if 0 ≤ q then ⌊q⌋ else ⌈q⌉

/-- Python 3 `round()` to an integer: round half to even. -/
def pyround (q : ℚ) : ℤ :=
  if q - ⌊q⌋ < 1/2 then ⌊q⌋
  else if 1/2 < q - ⌊q⌋ then ⌊q⌋ + 1
  else if ⌊q⌋ % 2 = 0 then ⌊q⌋ else ⌊q⌋ + 1

/-- `fmt_time` (src/app.py lines 58-63):
`ms = int(round((sec - int(sec)) * 1000))`, `s = int(sec) % 60`,
`m = (int(sec) // 60) % 60`, `h = int(sec) // 3600`, rendered as
`f"{h:02d}:{m:02d}:{s:02d}.{ms:03d}"` (Python `//` is floor division and
`%` keeps the divisor's sign, hence `Int.fdiv`/`Int.emod`). -/
def fmt_time (sec : ℚ) : Str :=
  padNum 2 (Int.fdiv (intPy sec) 3600) ++ ':' ::
  (padNum 2 (Int.emod (Int.fdiv (intPy sec) 60) 60) ++ ':' ::
  (padNum 2 (Int.emod (intPy sec) 60) ++ '.' ::
  padNum 3 (pyround ((sec - (intPy sec : ℚ)) * 1000))))

/-- One caption segment as consumed by the renderer.  `join_items_raw`
reads the `text` and `start` keys with defaults; the raw-segment
construction in `fetch_transcript` always supplies them, so they are
modelled as present fields. -/
structure Segment where
  text : Str
  start : ℚ
  duration : ℚ
deriving DecidableEq

/-- `join_items_raw` (src/app.py lines 65-74): two list comprehensions
keeping the segments whose stripped text is non-empty — with timestamps
the line is `f"{fmt_time(start)} - {text}".strip()`, without it is
`text.strip()` — joined with newlines and stripped. -/
def join_items_raw (items : List Segment) (with_timestamps : Bool) : Str :=
  let lines :=
    if with_timestamps then
      items.filterMap (fun it =>
        if (strip it.text).isEmpty then none
        else some (strip (fmt_time it.start ++ (" - ").toList ++ it.text)))
    else
      items.filterMap (fun it =>
        if (strip it.text).isEmpty then none else some (strip it.text))
  strip (joinNL lines)

/-- The rendering policy of claim C6 as amended: keep the segments whose
stripped text is non-empty; with timestamps the emitted line is the
timestamp, the separator and the raw text with the whole line stripped at
both ends (the text's own leading whitespace is preserved after the
separator); without timestamps the stripped text; join with newlines and
strip the result. -/
def renderAmended (items : List Segment) (with_timestamps : Bool) : Str :=
  let kept := items.filter (fun it => !(strip it.text).isEmpty)
  let lines := kept.map (fun it =>
    if with_timestamps then strip (fmt_time it.start ++ (" - ").toList ++ it.text)
    else strip it.text)
  strip (joinNL lines)

/-! ## Transcript selection and error mapping
(`fetch_transcript`, src/app.py lines 134-209) -/

/-- One available caption track (the `TrackDescriptor` attributes the code
reads). -/
structure Track where
  language_code : Str
  language : Str
  is_generated : Bool
deriving DecidableEq

/-- The exception classes distinguished by the route handlers: the three
imported caption-source failures, `ValueError`, `IndexError` (raised by
`ts[index]`), and everything else. -/
inductive PyExc
  | transcriptsDisabled : Str → PyExc
  | videoUnavailable : Str → PyExc
  | noTranscriptFound : Str → PyExc
  | valueError : Str → PyExc
  | indexError : Str → PyExc
  | other : Str → PyExc
deriving DecidableEq

/-- Modelled from the spec: `find_transcript`, the selection-by-language
operation of the external caption-source collaborator
(`youtube_transcript_api`), whose code is not part of src/ — the code
only calls `tlist.find_transcript([lang])`.  Per the spec: "return the
first track whose language code matches case-insensitively", failing
with `NoTranscriptFound` when none matches. -/
def find_transcript (ts : List Track) (lang : Str) : Except PyExc Track :=
  match ts.find? (fun t => lowerEq t.language_code lang) with
  | some t => .ok t
  | none => .error (.noTranscriptFound (("no transcript found").toList))

/-- Python list indexing `l[i]`: negative indices count from the end;
out-of-range indices raise `IndexError("list index out of range")`. -/
def pyIndex {α : Type} (l : List α) (i : ℤ) : Except PyExc α :=
  let j := if i < 0 then i + l.length else i
  if h : 0 ≤ j ∧ j < l.length then .ok (l.get ⟨j.toNat, by omega⟩)
  else .error (.indexError (("list index out of range").toList))

/-- The selection step of `fetch_transcript` (src/app.py lines 160-165 and
185-190): `ts[index]` when an index was supplied, else
`find_transcript([lang])` when a language was supplied, else `ts[0]`. -/
def selectTrack (ts : List Track) (index : Option ℤ) (lang : Option Str) :
    Except PyExc Track :=
  match index with
  | some i => pyIndex ts i
  | none =>
    match lang with
    | some l => find_transcript ts l
    | none => pyIndex ts 0

/-- The JSON-shaped error reply of a route handler: HTTP status plus the
`success`/`error` body fields. -/
structure HttpOut where
  status : ℕ
  success : Bool
  error : Str
deriving DecidableEq

/-- The `except` clauses of `fetch_transcript` (src/app.py lines 204-209):
the three caption-source failures and `ValueError` become 400 replies
carrying the message; every other exception becomes the generic 500 reply
`'Failed to fetch transcript: ' + str(e)`. -/
def classifyFetchErr (e : PyExc) : HttpOut :=
  match e with
  | .transcriptsDisabled m => ⟨400, false, m⟩
  | .videoUnavailable m => ⟨400, false, m⟩
  | .noTranscriptFound m => ⟨400, false, m⟩
  | .valueError m => ⟨400, false, m⟩
  | .indexError m => ⟨500, false, ("Failed to fetch transcript: ").toList ++ m⟩
  | .other m => ⟨500, false, ("Failed to fetch transcript: ").toList ++ m⟩

/-- The `except` clauses of `list_transcripts` (src/app.py lines 127-132),
identical but for the message. -/
def classifyListErr (e : PyExc) : HttpOut :=
  match e with
  | .transcriptsDisabled m => ⟨400, false, m⟩
  | .videoUnavailable m => ⟨400, false, m⟩
  | .noTranscriptFound m => ⟨400, false, m⟩
  | .valueError m => ⟨400, false, m⟩
  | .indexError m => ⟨500, false, ("Failed to list transcripts: ").toList ++ m⟩
  | .other m => ⟨500, false, ("Failed to list transcripts: ").toList ++ m⟩

/-- The selection step composed with the route's exception mapping: a
selection failure surfaces as the corresponding HTTP error reply. -/
def fetch_select_response (ts : List Track) (index : Option ℤ)
    (lang : Option Str) : Except HttpOut Track :=
  match selectTrack ts index lang with
  | .ok t => .ok t
  | .error e => .error (classifyFetchErr e)

/-- The message marker test of the claimed rate-limit heuristic: an HTTP
429 indicator or a "Too Many Requests" marker in the failure message. -/
def hasMarker (m : Str) : Bool :=
  hasSub (("429").toList) m || hasSub (("Too Many Requests").toList) m

/-- A concrete three-track list used by witnesses and counterexamples. -/
def sampleTracks : List Track :=
  [⟨("en").toList, ("English").toList, false⟩,
   ⟨("fr").toList, ("French").toList, false⟩,
   ⟨("de").toList, ("German").toList, true⟩]

/-- A concrete two-track list used by the language-selection witness. -/
def frEnTracks : List Track :=
  [⟨("fr").toList, ("French").toList, false⟩,
   ⟨("en").toList, ("English").toList, false⟩]

/-! ## General lemmas about the string helpers -/

theorem dropLit_append (p s : Str) : dropLit p (p ++ s) = some s := by
  induction p with
  | nil => rfl
  | cons a p ih => simp [dropLit, ih]

theorem dropLit_some (p : Str) : ∀ s t : Str, dropLit p s = some t → s = p ++ t := by
  induction p with
  | nil =>
    intro s t h
    simp [dropLit] at h
    simp [h]
  | cons a p ih =>
    intro s t h
    cases s with
    | nil => simp [dropLit] at h
    | cons b s' =>
      by_cases hab : a = b
      · subst hab
        simp only [dropLit, if_pos rfl] at h
        simp [ih s' t h]
      · simp [dropLit, hab] at h

theorem splitAtChar_none (k : Char) (s : Str) (h : ∀ c ∈ s, ¬ c = k) :
    splitAtChar k s = none := by
  induction s with
  | nil => rfl
  | cons a rest ih =>
    have ha : ¬ a = k := h a (by simp)
    simp [splitAtChar, ha, ih (fun c hc => h c (by simp [hc]))]

theorem splitAtChar_append_some (k : Char) (l : Str) :
    ∀ r a b : Str, splitAtChar k l = some (a, b) →
      splitAtChar k (l ++ r) = some (a, b ++ r) := by
  induction l with
  | nil => intro r a b h; simp [splitAtChar] at h
  | cons c l ih =>
    intro r a b h
    by_cases hc : c = k
    · simp only [splitAtChar, if_pos hc] at h
      obtain ⟨ha, hb⟩ := Prod.mk.inj (Option.some.inj h)
      subst ha; subst hb
      simp [splitAtChar, if_pos hc]
    · simp only [splitAtChar, if_neg hc] at h
      rcases hl : splitAtChar k l with _ | p
      · rw [hl] at h; simp at h
      · rw [hl, Option.map_some'] at h
        obtain ⟨ha, hb⟩ := Prod.mk.inj (Option.some.inj h)
        subst ha; subst hb
        simp only [List.cons_append, splitAtChar, if_neg hc, List.append_eq]
        rw [ih r p.1 p.2 (by rw [hl])]
        simp

theorem splitAtChar_append_none (k : Char) (l r : Str) (h : splitAtChar k l = none) :
    splitAtChar k (l ++ r) = (splitAtChar k r).map (fun p => (l ++ p.1, p.2)) := by
  induction l with
  | nil =>
    rw [List.nil_append]
    cases splitAtChar k r with
    | none => simp
    | some p => simp
  | cons c l ih =>
    by_cases hc : c = k
    · simp [splitAtChar, hc] at h
    · simp only [splitAtChar, if_neg hc] at h
      have hl : splitAtChar k l = none := by
        cases hx : splitAtChar k l with
        | none => rfl
        | some p => rw [hx] at h; simp at h
      simp only [List.cons_append, splitAtChar, if_neg hc, List.append_eq]
      rw [ih hl]
      cases splitAtChar k r with
      | none => simp
      | some p => simp

theorem pySplit_ne_nil (k : Char) (s : Str) : pySplit k s ≠ [] := by
  cases s with
  | nil => simp [pySplit]
  | cons c rest =>
    simp only [pySplit]
    by_cases hc : c = k
    · simp [hc]
    · simp only [if_neg hc]
      cases pySplit k rest <;> simp

theorem pySplit_no (k : Char) (s : Str) (h : ∀ c ∈ s, ¬ c = k) : pySplit k s = [s] := by
  induction s with
  | nil => rfl
  | cons c rest ih =>
    have hc : ¬ c = k := h c (by simp)
    have hr := ih (fun d hd => h d (by simp [hd]))
    simp [pySplit, hc, hr]

theorem pySplit_append_no (k : Char) (l r : Str) (h : ∀ c ∈ l, ¬ c = k) :
    pySplit k (l ++ r) = (l ++ (pySplit k r).headI) :: (pySplit k r).tail := by
  induction l with
  | nil =>
    simp only [List.nil_append, List.nil_append]
    cases hr : pySplit k r with
    | nil => exact absurd hr (pySplit_ne_nil k r)
    | cons x xs => simp
  | cons c l ih =>
    have hc : ¬ c = k := h c (by simp)
    have ihh := ih (fun d hd => h d (by simp [hd]))
    rw [List.cons_append]
    simp only [pySplit, if_neg hc]
    rw [ihh]
    simp

theorem map_plus_id (s : Str) (h : ∀ c ∈ s, ¬ c = '+') :
    s.map (fun c => if c = '+' then ' ' else c) = s := by
  induction s with
  | nil => rfl
  | cons a rest ih =>
    simp [h a (by simp), ih (fun c hc => h c (by simp [hc]))]

theorem unquote_plus_id (s : Str) (h : ∀ c ∈ s, ¬ c = '+' ∧ ¬ c = '%') :
    unquote_plus s = s := by
  unfold unquote_plus unquote
  rw [map_plus_id s (fun c hc => (h c hc).1),
    pySplit_no '%' s (fun c hc => (h c hc).2)]
  simp

theorem filterMap_ite {α β : Type} (l : List α) (p : α → Bool) (f : α → β) :
    l.filterMap (fun x => if p x then none else some (f x)) =
      (l.filter (fun x => !p x)).map f := by
  induction l with
  | nil => rfl
  | cons a l ih => cases hpa : p a <;> simp [List.filterMap_cons, List.filter_cons, hpa, ih]

/-- `find?` returns the element at the first index satisfying the predicate. -/
theorem find_first {α : Type} (p : α → Bool) :
    ∀ (l : List α) (i : ℕ) (hi : i < l.length),
      p (l.get ⟨i, hi⟩) = true →
      (∀ j, (hj : j < i) → p (l.get ⟨j, Nat.lt_trans hj hi⟩) = false) →
      l.find? p = some (l.get ⟨i, hi⟩)
  | [], i, hi, _, _ => absurd hi (Nat.not_lt_zero i)
  | a :: l, 0, _, hm, _ => by
    rw [List.find?_cons_of_pos _ (show p a = true from hm)]
    rfl
  | a :: l, n + 1, hi, hm, hfirst => by
    have h0 : p a = false := hfirst 0 (Nat.succ_pos n)
    rw [List.find?_cons_of_neg _ (by simp [h0])]
    exact find_first p l n (Nat.lt_of_succ_lt_succ hi) hm
      (fun j hj => hfirst (j + 1) (Nat.succ_lt_succ hj))

/-! ## Lemmas about the id character class -/

theorem idChar_no (c : Char) (h : idChar c = true) :
    ¬ c = '?' ∧ ¬ c = '&' ∧ ¬ c = '#' ∧ ¬ c = '/' ∧ ¬ c = ':' ∧ ¬ c = '%' ∧
      ¬ c = '+' ∧ ¬ c = '=' := by
  refine ⟨?_, ?_, ?_, ?_, ?_, ?_, ?_, ?_⟩ <;> intro hc <;> subst hc <;>
    exact absurd h (by decide)

theorem isCleanId_spec (s : Str) (h : isCleanId s = true) :
    s.length = 11 ∧ ∀ c ∈ s, idChar c = true := by
  unfold isCleanId at h
  simp only [Bool.and_eq_true, beq_iff_eq, List.all_eq_true] at h
  exact ⟨h.1, h.2⟩

theorem bareId_of_clean (s : Str) (h : isCleanId s = true) : bareId s = true := by
  obtain ⟨hlen, _⟩ := isCleanId_spec s h
  unfold bareId
  rw [List.take_of_length_le (by omega), List.drop_eq_nil_of_le (by omega), h]
  rfl

theorem bareId_parts (s : Str) (h : bareId s = true) :
    isCleanId (s.take 11) = true ∧ (s.drop 11 = [] ∨ s.drop 11 = ['\n']) := by
  unfold bareId at h
  simp only [Bool.and_eq_true, Bool.or_eq_true, beq_iff_eq] at h
  exact h

theorem bareId_chars (s : Str) (h : bareId s = true) :
    ∀ c ∈ s, idChar c = true ∨ c = '\n' := by
  obtain ⟨hc, hd⟩ := bareId_parts s h
  obtain ⟨_, hall⟩ := isCleanId_spec _ hc
  intro c hm
  rw [← List.take_append_drop 11 s] at hm
  rcases List.mem_append.mp hm with hm | hm
  · exact Or.inl (hall c hm)
  · rcases hd with hd | hd
    · rw [hd] at hm
      simp at hm
    · rw [hd] at hm
      simp at hm
      exact Or.inr hm

theorem bareId_ne_nil (s : Str) (h : bareId s = true) : s ≠ [] := by
  obtain ⟨hc, _⟩ := bareId_parts s h
  obtain ⟨hlen, _⟩ := isCleanId_spec _ hc
  intro he
  rw [he] at hlen
  exact absurd hlen (by decide)

theorem idChar_not_shortExcl (c : Char) (h : idChar c = true) : (!shortExcl c) = true := by
  obtain ⟨h1, h2, h3, h4, _⟩ := idChar_no c h
  simp [shortExcl, beq_iff_eq, h1, h2, h3, h4]

theorem takeWhile_id_all (s : Str) (h : ∀ c ∈ s, idChar c = true) :
    s.takeWhile (fun c => !shortExcl c) = s := by
  induction s with
  | nil => rfl
  | cons a rest ih =>
    simp [List.takeWhile_cons, idChar_not_shortExcl a (h a (by simp)),
      ih (fun c hc => h c (by simp [hc]))]

/-! ## Lemmas about the extractor -/

theorem dropLit_lit_none (lit url : Str) (k : Char) (hk : k ∈ lit)
    (h : ∀ c ∈ url, ¬ c = k) :
    dropLit lit url = none := by
  cases hd : dropLit lit url with
  | none => rfl
  | some t =>
    have he := dropLit_some lit url t hd
    have hm : k ∈ url := by
      rw [he]
      exact List.mem_append_left _ hk
    exact absurd rfl (h k hm)

theorem shortMatch_bare (url : Str) (h : ∀ c ∈ url, ¬ c = ':') :
    shortMatch url = none := by
  have h1 : dropLit (("https://").toList) url = none :=
    dropLit_lit_none _ url ':' (by decide) h
  have h2 : dropLit (("http://").toList) url = none :=
    dropLit_lit_none _ url ':' (by decide) h
  unfold shortMatch
  rw [h1, h2]

theorem shortMatch_ytcom (rest : Str) :
    shortMatch (("https://www.youtube.com/").toList ++ rest) = none := by
  have e1 : dropLit (("https://").toList) (("https://www.youtube.com/").toList ++ rest)
      = some (("www.youtube.com/").toList ++ rest) := by
    rw [show ("https://www.youtube.com/").toList ++ rest
      = ("https://").toList ++ (("www.youtube.com/").toList ++ rest) from rfl, dropLit_append]
  have e2 : wwwDrop (("www.youtube.com/").toList ++ rest)
      = ("youtube.com/").toList ++ rest := by
    unfold wwwDrop
    rw [show ("www.youtube.com/").toList ++ rest
      = ("www.").toList ++ (("youtube.com/").toList ++ rest) from rfl, dropLit_append]
  have e3 : dropLit (("youtu.be/").toList) (("youtube.com/").toList ++ rest) = none := by
    simp [dropLit]
  unfold shortMatch
  rw [e1]
  show shortTail (("www.youtube.com/").toList ++ rest) = none
  unfold shortTail
  rw [e2, e3]

theorem urlparse_bare (url : Str)
    (h : ∀ c ∈ url, ¬ c = ':' ∧ ¬ c = '/' ∧ ¬ c = '#' ∧ ¬ c = '?')
    (hne : url ≠ []) :
    urlparse url = ⟨[], [], url, [], []⟩ := by
  have hsch : schemeSplit url = ([], url) := by
    unfold schemeSplit
    rw [splitAtChar_none ':' url (fun c hc => (h c hc).1)]
  have hnet : netlocSplit url = ([], url) := by
    cases url with
    | nil => exact absurd rfl hne
    | cons a t =>
      cases t with
      | nil => rfl
      | cons b t2 =>
        have ha : ¬ a = '/' := (h a (by simp)).2.1
        simp [netlocSplit, ha]
  have hfr : splitOpt '#' url = (url, []) := by
    unfold splitOpt
    rw [splitAtChar_none '#' url (fun c hc => (h c hc).2.2.1)]
  have hq : splitOpt '?' url = (url, []) := by
    unfold splitOpt
    rw [splitAtChar_none '?' url (fun c hc => (h c hc).2.2.2)]
  simp only [urlparse, hsch, hnet, hfr, hq]

theorem extract_bare (url : Str) (hb : bareId url = true) :
    extract_video_id url = .ok url := by
  have hchars := bareId_chars url hb
  have hne := bareId_ne_nil url hb
  have hspec : ∀ c ∈ url, ¬ c = ':' ∧ ¬ c = '/' ∧ ¬ c = '#' ∧ ¬ c = '?' := by
    intro c hc
    rcases hchars c hc with hid | hnl
    · obtain ⟨h1, _, h3, h4, h5, _⟩ := idChar_no c hid
      exact ⟨h5, h4, h3, h1⟩
    · subst hnl
      exact ⟨by decide, by decide, by decide, by decide⟩
  unfold extract_video_id
  rw [shortMatch_bare url (fun c hc => (hspec c hc).1)]
  simp [urlparse_bare url hspec hne,
    show (("youtube.com").toList.isSuffixOf ([] : Str)) = false from by decide, hb]

theorem extract_short (id : Str) (hb : isCleanId id = true) :
    extract_video_id (("https://youtu.be/").toList ++ id) = .ok id := by
  obtain ⟨hlen, hall⟩ := isCleanId_spec id hb
  have hne : id.isEmpty = false := by
    cases id with
    | nil => exact absurd hlen (by decide)
    | cons a t => rfl
  have e1 : dropLit (("https://").toList) (("https://youtu.be/").toList ++ id)
      = some (("youtu.be/").toList ++ id) := by
    rw [show ("https://youtu.be/").toList ++ id
      = ("https://").toList ++ (("youtu.be/").toList ++ id) from rfl, dropLit_append]
  have e2 : wwwDrop (("youtu.be/").toList ++ id) = ("youtu.be/").toList ++ id := by
    unfold wwwDrop
    rw [show dropLit (("www.").toList) (("youtu.be/").toList ++ id) = none from by
      simp [dropLit]]
  have e3 : dropLit (("youtu.be/").toList) (("youtu.be/").toList ++ id) = some id :=
    dropLit_append _ _
  have e4 : id.takeWhile (fun c => !shortExcl c) = id := takeWhile_id_all id hall
  have hsm : shortMatch (("https://youtu.be/").toList ++ id) = some id := by
    unfold shortMatch
    rw [e1]
    show shortTail (("youtu.be/").toList ++ id) = some id
    unfold shortTail
    rw [e2, e3]
    show shortCapture id = some id
    unfold shortCapture
    rw [e4]
    show (if id.isEmpty = true then none else some id) = some id
    rw [hne]
    rfl
  unfold extract_video_id
  rw [hsm]

theorem schemeSplit_eq_of (url a b : Str) (h : splitAtChar ':' url = some (a, b))
    (hok : schemeOk a = true) :
    schemeSplit url = (a.map Char.toLower, b) := by
  unfold schemeSplit
  rw [h]
  simp [hok]

theorem urlparse_watch (X : Str) (hX : ∀ c ∈ X, ¬ c = '#') :
    urlparse (("https://www.youtube.com/watch?v=").toList ++ X) =
      ⟨("https").toList, ("www.youtube.com").toList, ("/watch").toList,
       ("v=").toList ++ X, []⟩ := by
  have hsch := schemeSplit_eq_of (("https://www.youtube.com/watch?v=").toList ++ X)
    (("https").toList) (("//www.youtube.com/watch?v=").toList ++ X)
    (splitAtChar_append_some ':' (("https://www.youtube.com/watch?v=").toList) X
      (("https").toList) (("//www.youtube.com/watch?v=").toList) (by decide))
    (by decide)
  rw [show ((("https").toList).map Char.toLower) = ("https").toList from by decide]
    at hsch
  have hnet : netlocSplit ((("//www.youtube.com/watch?v=").toList) ++ X)
      = (("www.youtube.com").toList, ("/watch?v=").toList ++ X) := by
    simp [netlocSplit, netChar, List.takeWhile, List.dropWhile]
  have hfr : splitOpt '#' ((("/watch?v=").toList) ++ X)
      = ((("/watch?v=").toList) ++ X, []) := by
    unfold splitOpt
    rw [splitAtChar_append_none '#' (("/watch?v=").toList) X (by decide),
      splitAtChar_none '#' X hX]
    rfl
  have hq : splitOpt '?' ((("/watch?v=").toList) ++ X)
      = (("/watch").toList, ("v=").toList ++ X) := by
    unfold splitOpt
    rw [splitAtChar_append_some '?' (("/watch?v=").toList) X (("/watch").toList)
      (("v=").toList) (by decide)]
  simp only [urlparse, hsch, hnet, hfr, hq]

theorem qslField_v (id : Str) (hall : ∀ c ∈ id, idChar c = true) (hne : id ≠ []) :
    qslField (("v=").toList ++ id) = some ((("v")).toList, id) := by
  have hidne : id.isEmpty = false := by
    cases id with
    | nil => exact absurd rfl hne
    | cons a t => rfl
  have hsp : splitAtChar '=' (("v=").toList ++ id) = some ((("v")).toList, id) := by
    rw [show ("v=").toList ++ id = ("v").toList ++ ('=' :: id) from rfl]
    rw [splitAtChar_append_none '=' (("v").toList) ('=' :: id) (by decide)]
    simp [splitAtChar]
  have huq : unquote_plus id = id :=
    unquote_plus_id id (fun c hc =>
      ⟨(idChar_no c (hall c hc)).2.2.2.2.2.2.1, (idChar_no c (hall c hc)).2.2.2.2.2.1⟩)
  unfold qslField
  rw [hsp]
  simp [hidne, huq]
  decide

theorem watch_find_v (id extra : Str) (hall : ∀ c ∈ id, idChar c = true) (hne : id ≠ [])
    (hextra : extra = [] ∨ ∃ e, extra = '&' :: e) :
    (parse_qsl (("v=").toList ++ (id ++ extra))).find? (fun pr => pr.1 == ("v").toList)
      = some ((("v")).toList, id) := by
  have hamp : ∀ c ∈ ("v=").toList ++ id, ¬ c = '&' := by
    intro c hc
    rcases List.mem_append.mp hc with h | h
    · rcases (by simpa using h : c = 'v' ∨ c = '=') with rfl | rfl <;> decide
    · exact (idChar_no c (hall c h)).2.1
  have hhead : (pySplit '&' extra).headI = [] := by
    rcases hextra with h | ⟨e, h⟩ <;> subst h
    · rfl
    · simp [pySplit]
  unfold parse_qsl
  rw [← List.append_assoc, pySplit_append_no '&' _ extra hamp, hhead, List.append_nil,
    List.filterMap_cons, qslField_v id hall hne]
  rw [List.find?_cons_of_pos _ (by simp)]

theorem extract_watch (id extra : Str) (hb : isCleanId id = true)
    (hx : ∀ c ∈ extra, ¬ c = '#')
    (hextra : extra = [] ∨ ∃ e, extra = '&' :: e) :
    extract_video_id (("https://www.youtube.com/watch?v=").toList ++ (id ++ extra))
      = .ok id := by
  obtain ⟨hlen, hall⟩ := isCleanId_spec id hb
  have hne : id ≠ [] := by
    intro he
    rw [he] at hlen
    exact absurd hlen (by decide)
  have hXall : ∀ c ∈ id ++ extra, ¬ c = '#' := by
    intro c hc
    rcases List.mem_append.mp hc with h | h
    · exact (idChar_no c (hall c h)).2.2.1
    · exact hx c h
  have hsm : shortMatch (("https://www.youtube.com/watch?v=").toList ++ (id ++ extra))
      = none := by
    rw [show ("https://www.youtube.com/watch?v=").toList ++ (id ++ extra)
      = ("https://www.youtube.com/").toList ++ (("watch?v=").toList ++ (id ++ extra))
      from rfl]
    exact shortMatch_ytcom _
  unfold extract_video_id
  rw [hsm]
  simp only [urlparse_watch (id ++ extra) hXall]
  rw [if_pos (by decide :
    (("youtube.com").toList.isSuffixOf (("www.youtube.com").toList)) = true)]
  simp only [if_true]
  rw [watch_find_v id extra hall hne hextra]

theorem urlparse_embed (id : Str) (hall : ∀ c ∈ id, idChar c = true) :
    urlparse (("https://www.youtube.com/embed/").toList ++ id) =
      ⟨("https").toList, ("www.youtube.com").toList, ("/embed/").toList ++ id,
       [], []⟩ := by
  have hsch := schemeSplit_eq_of (("https://www.youtube.com/embed/").toList ++ id)
    (("https").toList) (("//www.youtube.com/embed/").toList ++ id)
    (splitAtChar_append_some ':' (("https://www.youtube.com/embed/").toList) id
      (("https").toList) (("//www.youtube.com/embed/").toList) (by decide))
    (by decide)
  rw [show ((("https").toList).map Char.toLower) = ("https").toList from by decide]
    at hsch
  have hnet : netlocSplit ((("//www.youtube.com/embed/").toList) ++ id)
      = (("www.youtube.com").toList, ("/embed/").toList ++ id) := by
    simp [netlocSplit, netChar, List.takeWhile, List.dropWhile]
  have hfr : splitOpt '#' ((("/embed/").toList) ++ id)
      = ((("/embed/").toList) ++ id, []) := by
    unfold splitOpt
    rw [splitAtChar_append_none '#' (("/embed/").toList) id (by decide),
      splitAtChar_none '#' id (fun c hc => (idChar_no c (hall c hc)).2.2.1)]
    rfl
  have hq : splitOpt '?' ((("/embed/").toList) ++ id)
      = ((("/embed/").toList) ++ id, []) := by
    unfold splitOpt
    rw [splitAtChar_append_none '?' (("/embed/").toList) id (by decide),
      splitAtChar_none '?' id (fun c hc => (idChar_no c (hall c hc)).1)]
    rfl
  simp only [urlparse, hsch, hnet, hfr, hq]

theorem extract_embed (id : Str) (hb : isCleanId id = true) :
    extract_video_id (("https://www.youtube.com/embed/").toList ++ id) = .ok id := by
  obtain ⟨hlen, hall⟩ := isCleanId_spec id hb
  have hne : id.isEmpty = false := by
    cases id with
    | nil => exact absurd hlen (by decide)
    | cons a t => rfl
  have hsm : shortMatch (("https://www.youtube.com/embed/").toList ++ id) = none := by
    rw [show ("https://www.youtube.com/embed/").toList ++ id
      = ("https://www.youtube.com/").toList ++ (("embed/").toList ++ id) from rfl]
    exact shortMatch_ytcom _
  have hpne : ¬ (("/embed/").toList ++ id = ("/watch").toList) := by
    intro he
    have hl := congrArg List.length he
    rw [List.length_append, hlen] at hl
    exact absurd hl (by decide)
  have hemb : embedMatch (("/embed/").toList ++ id) = some id := by
    unfold embedMatch
    rw [dropLit_append]
    show (if (id.takeWhile (fun c => !shortExcl c)).isEmpty = true then none
      else some (id.takeWhile (fun c => !shortExcl c))) = some id
    rw [takeWhile_id_all id hall, hne]
    rfl
  have hsuf : (("youtube.com").toList.isSuffixOf (("www.youtube.com").toList)) = true := by
    decide
  unfold extract_video_id
  rw [hsm]
  simp only [urlparse_embed id hall]
  rw [if_pos hsuf]
  rw [if_neg hpne]
  rw [if_pos hsuf]
  rw [hemb]

/-! ## Lemmas about Python list indexing -/

theorem pyIndex_nonneg {α : Type} (l : List α) (i : ℕ) (hi : i < l.length) :
    pyIndex l (i : ℤ) = .ok (l.get ⟨i, hi⟩) := by
  simp only [pyIndex, if_neg (by omega : ¬ (i : ℤ) < 0)]
  rw [dif_pos (⟨by omega, by omega⟩ : 0 ≤ (i : ℤ) ∧ (i : ℤ) < l.length)]
  simp

theorem pyIndex_oob {α : Type} (l : List α) (j : ℤ) (hj : (l.length : ℤ) ≤ j) :
    pyIndex l j = .error (.indexError (("list index out of range").toList)) := by
  simp only [pyIndex, if_neg (by omega : ¬ j < 0)]
  rw [dif_neg (by omega : ¬ (0 ≤ j ∧ j < (l.length : ℤ)))]

theorem pyIndex_neg {α : Type} (l : List α) (i : ℤ) (h1 : -(l.length : ℤ) ≤ i)
    (h2 : i < 0) :
    pyIndex l i = .ok (l.get ⟨(i + l.length).toNat, by omega⟩) := by
  simp only [pyIndex, if_pos h2]
  rw [dif_pos (⟨by omega, by omega⟩ :
    0 ≤ i + (l.length : ℤ) ∧ i + (l.length : ℤ) < l.length)]

/-! ## Claim theorems -/

/-- C1 (counterexample): a source failure whose message carries both an
HTTP 429 indicator and the "Too Many Requests" marker is mapped by the
fetch handler to the generic 500 reply — byte-for-byte the `Unknown`
mapping, with the same status as any other unexpected failure — not to a
distinct RateLimited kind. -/
theorem C1_rate_limit_counterexample :
    hasMarker (("HTTP Error 429: Too Many Requests").toList) = true ∧
    classifyFetchErr (.other (("HTTP Error 429: Too Many Requests").toList)) =
      ⟨500, false, ("Failed to fetch transcript: HTTP Error 429: Too Many Requests").toList⟩ ∧
    (classifyFetchErr (.other (("HTTP Error 429: Too Many Requests").toList))).status =
      (classifyFetchErr (.other (("boom").toList))).status := by
  refine ⟨by decide, by decide, by decide⟩

/-- C1 (amended): a failure raised by the caption source during list or
fetch whose message contains an HTTP 429 indicator or a "Too Many
Requests" marker is mapped to the same generic class as every other
unexpected source failure — status 500 with the handler's
`Failed to ...` message carrying the underlying text verbatim; the code
defines no distinct RateLimited kind. -/
theorem C1_rate_limit_amended (m : Str) (_h : hasMarker m = true) :
    classifyFetchErr (.other m) =
      ⟨500, false, ("Failed to fetch transcript: ").toList ++ m⟩ ∧
    classifyListErr (.other m) =
      ⟨500, false, ("Failed to list transcripts: ").toList ++ m⟩ :=
  ⟨rfl, rfl⟩

theorem C1_rate_limit_amended_witness :
    hasMarker (("Too Many Requests").toList) = true ∧
    classifyFetchErr (.other (("Too Many Requests").toList)) =
      ⟨500, false, ("Failed to fetch transcript: ").toList ++ ("Too Many Requests").toList⟩ :=
  ⟨by decide, (C1_rate_limit_amended (("Too Many Requests").toList) (by decide)).1⟩

/-- C2 (counterexample): when the collaborator's constructor raises an
exception other than `TypeError`, the first probe's `except TypeError`
does not catch it, so `detect_api_mode` raises instead of resolving to a
revision. -/
theorem C2_detect_counterexample :
    detect_api_mode ⟨.error .otherErr, false, false⟩ = .error .otherErr := rfl

/-- C2 (amended): for every collaborator behaviour in which the
constructor either succeeds (with or without the `list`/`fetch`
attributes) or raises `TypeError`, detection never raises and resolves to
one of the two revisions by the stated probe order; a constructor
failure other than `TypeError` propagates out of detection. -/
theorem C2_detect_amended (a : ApiSurface) (h : a.ctor ≠ .error .otherErr) :
    detect_api_mode a = .ok .new ∨ detect_api_mode a = .ok .old := by
  unfold detect_api_mode
  cases hc : a.ctor with
  | ok inst =>
    by_cases hl : (inst.hasList && inst.hasFetch) = true
    · left; simp [hl]
    · by_cases hs : (a.hasListTranscriptsAttr || a.hasGetTranscriptAttr) = true
      · right; simp [hl, hs]
      · left; simp [hl, hs]
  | error e =>
    cases e with
    | typeErr =>
      by_cases hs : (a.hasListTranscriptsAttr || a.hasGetTranscriptAttr) = true
      · right; simp [hs]
      · right; simp [hs]
    | otherErr => exact absurd hc h

theorem C2_detect_amended_witness :
    (ApiSurface.mk (.ok ⟨true, true⟩) false false).ctor ≠ .error .otherErr ∧
    (detect_api_mode ⟨.ok ⟨true, true⟩, false, false⟩ = .ok .new ∨
     detect_api_mode ⟨.ok ⟨true, true⟩, false, false⟩ = .ok .old) :=
  ⟨by decide, C2_detect_amended ⟨.ok ⟨true, true⟩, false, false⟩ (by decide)⟩

/-- C4 (counterexample): an out-of-bounds explicit index (5 on the
three-track list) is not surfaced as a distinguishable SelectionError
kind: it produces exactly the generic 500 reply, identical to the reply
produced for an arbitrary unknown failure with the same message. -/
theorem C4_index_counterexample :
    fetch_select_response sampleTracks (some 5) none =
      .error ⟨500, false, ("Failed to fetch transcript: list index out of range").toList⟩ ∧
    classifyFetchErr (.other (("list index out of range").toList)) =
      ⟨500, false, ("Failed to fetch transcript: list index out of range").toList⟩ := by
  refine ⟨by decide, by decide⟩

/-- C4 (amended): with an explicit in-bounds index the selection step
returns the track at that 0-based position; with an index at or beyond
the list length it raises `IndexError`, which the handler maps to the
generic 500 `Failed to fetch transcript:` reply — the same class as
`Unknown` failures, not a distinct SelectionError kind. -/
theorem C4_index_amended (ts : List Track) (i : ℕ) (hi : i < ts.length) :
    fetch_select_response ts (some (i : ℤ)) none = .ok (ts.get ⟨i, hi⟩) ∧
    ∀ j : ℤ, (ts.length : ℤ) ≤ j →
      fetch_select_response ts (some j) none =
        .error ⟨500, false,
          ("Failed to fetch transcript: list index out of range").toList⟩ := by
  constructor
  · show (match selectTrack ts (some (i : ℤ)) none with
      | .ok t => Except.ok t
      | .error e => Except.error (classifyFetchErr e)) = _
    rw [show selectTrack ts (some (i : ℤ)) none = pyIndex ts (i : ℤ) from rfl,
      pyIndex_nonneg ts i hi]
  · intro j hj
    show (match selectTrack ts (some j) none with
      | .ok t => Except.ok t
      | .error e => Except.error (classifyFetchErr e)) = _
    rw [show selectTrack ts (some j) none = pyIndex ts j from rfl, pyIndex_oob ts j hj]
    rfl

theorem C4_index_amended_witness :
    2 < sampleTracks.length ∧
    fetch_select_response sampleTracks (some 2) none =
      .ok ⟨("de").toList, ("German").toList, true⟩ ∧
    fetch_select_response sampleTracks (some 5) none =
      .error ⟨500, false, ("Failed to fetch transcript: list index out of range").toList⟩ := by
  have h := C4_index_amended sampleTracks 2 (by decide)
  exact ⟨by decide, h.1.trans (by decide), h.2 5 (by decide)⟩

theorem fmt_time_eval (sec : ℚ) (w m : ℤ) (hw : intPy sec = w)
    (hm : pyround ((sec - (w : ℚ)) * 1000) = m) :
    fmt_time sec = padNum 2 (Int.fdiv w 3600) ++ ':' ::
      (padNum 2 (Int.emod (Int.fdiv w 60) 60) ++ ':' ::
      (padNum 2 (Int.emod w 60) ++ '.' :: padNum 3 m)) := by
  unfold fmt_time
  rw [hw, hm]

theorem join_single_ts (t : Str) (q d : ℚ) (h : (strip t).isEmpty = false) :
    join_items_raw [⟨t, q, d⟩] true =
      strip (strip (fmt_time q ++ (" - ").toList ++ t)) := by
  have h' : ¬ strip t = [] := by
    intro he
    rw [he] at h
    simp at h
  unfold join_items_raw
  simp [List.filterMap_cons, List.filterMap_nil, h', joinNL]

/-- C5 (code bug): the millisecond field of `fmt_time` is produced by
rounding the fractional remainder, so a remainder of at least 0.9995
seconds rounds to 1000 and is printed as the four-digit field `1000`
without carrying into the seconds — at offset 1.9996 the code renders
`00:00:01.1000`, not a `HH:MM:SS.mmm` string with a three-digit
millisecond field.  The claim's own example at offset 3661.25 does hold,
as the second conjunct shows. -/
theorem C5_fmt_time_carry_bug :
    fmt_time ((4999 : ℚ)/2500) = ("00:00:01.1000").toList ∧
    join_items_raw [⟨("hi").toList, (14645 : ℚ)/4, 1⟩] true =
      ("01:01:01.250 - hi").toList := by
  have h1 : intPy ((4999 : ℚ)/2500) = 1 := by
    unfold intPy
    rw [if_pos (by norm_num)]
    norm_num
  have h2 : pyround ((((4999 : ℚ)/2500) - ((1 : ℤ) : ℚ)) * 1000) = 1000 := by
    unfold pyround
    have hf : ⌊(((4999 : ℚ)/2500) - ((1 : ℤ) : ℚ)) * 1000⌋ = 999 := by norm_num
    rw [hf, if_neg (by norm_num), if_pos (by norm_num)]
    norm_num
  have h3 : intPy ((14645 : ℚ)/4) = 3661 := by
    unfold intPy
    rw [if_pos (by norm_num)]
    norm_num
  have h4 : pyround ((((14645 : ℚ)/4) - ((3661 : ℤ) : ℚ)) * 1000) = 250 := by
    unfold pyround
    have hf : ⌊(((14645 : ℚ)/4) - ((3661 : ℤ) : ℚ)) * 1000⌋ = 250 := by norm_num
    rw [hf, if_pos (by norm_num)]
  constructor
  · rw [fmt_time_eval ((4999 : ℚ)/2500) 1 1000 h1 h2]
    decide
  · rw [join_single_ts (("hi").toList) ((14645 : ℚ)/4) 1 (by decide),
      fmt_time_eval ((14645 : ℚ)/4) 3661 250 h3 h4]
    decide

/-- C6 (counterexample): with timestamps requested, the code strips the
whole concatenated line rather than the text before concatenation, so a
text with leading whitespace keeps that whitespace after the `" - "`
separator: rendering `" hi"` at offset 0 yields `"00:00:00.000 -  hi"`
(two spaces), not the claimed timestamp-prefixed trimmed text
`"00:00:00.000 - hi"`. -/
theorem C6_render_counterexample :
    join_items_raw [⟨(" hi").toList, 0, 1⟩] true = ("00:00:00.000 -  hi").toList ∧
    join_items_raw [⟨(" hi").toList, 0, 1⟩] true ≠ ("00:00:00.000 - hi").toList := by
  have h0 : intPy (0 : ℚ) = 0 := by
    unfold intPy
    rw [if_pos (by norm_num)]
    norm_num
  have hms0 : pyround (((0 : ℚ) - ((0 : ℤ) : ℚ)) * 1000) = 0 := by
    unfold pyround
    have hf : ⌊((0 : ℚ) - ((0 : ℤ) : ℚ)) * 1000⌋ = 0 := by norm_num
    rw [hf, if_pos (by norm_num)]
  have key : join_items_raw [⟨(" hi").toList, 0, 1⟩] true =
      ("00:00:00.000 -  hi").toList := by
    rw [join_single_ts ((" hi").toList) 0 1 (by decide), fmt_time_eval (0 : ℚ) 0 0 h0 hms0]
    decide
  exact ⟨key, by rw [key]; decide⟩

/-- C6 (amended): the renderer drops every segment whose text trims to
empty, emits for each remaining segment the trimmed text — or, with
timestamps, the timestamp, the `" - "` separator and the raw text with
the concatenated line stripped at both ends (so leading whitespace of
the text is preserved after the separator, trailing whitespace is
trimmed) — joins the lines with newlines and trims the result; in
particular rendering a whitespace-only segment yields the empty
string. -/
theorem C6_render_amended (items : List Segment) (b : Bool) :
    join_items_raw items b = renderAmended items b ∧
    join_items_raw [⟨("  ").toList, 0, 1⟩] false = [] := by
  constructor
  · cases b
    · exact congrArg (fun l => strip (joinNL l))
        (filterMap_ite items (fun it => (strip it.text).isEmpty)
          (fun it => strip it.text))
    · exact congrArg (fun l => strip (joinNL l))
        (filterMap_ite items (fun it => (strip it.text).isEmpty)
          (fun it => strip (fmt_time it.start ++ (" - ").toList ++ it.text)))
  · decide

/-- C8: with no explicit index and a language code set, selection goes
through the (spec-modelled) `find_transcript` and returns the first track
in list order whose language code matches the requested one
case-insensitively. -/
theorem C8_language_selection (ts : List Track) (lang : Str) (i : ℕ) (hi : i < ts.length)
    (hm : lowerEq ((ts.get ⟨i, hi⟩).language_code) lang = true)
    (hfirst : ∀ j, (hj : j < i) →
      lowerEq ((ts.get ⟨j, Nat.lt_trans hj hi⟩).language_code) lang = false) :
    selectTrack ts none (some lang) = .ok (ts.get ⟨i, hi⟩) := by
  show find_transcript ts lang = _
  unfold find_transcript
  rw [find_first (fun t => lowerEq t.language_code lang) ts i hi hm hfirst]

theorem C8_language_selection_witness :
    1 < frEnTracks.length ∧
    lowerEq ((frEnTracks.get ⟨1, by decide⟩).language_code) (("EN").toList) = true ∧
    selectTrack frEnTracks none (some (("EN").toList)) =
      .ok ⟨("en").toList, ("English").toList, false⟩ := by
  refine ⟨by decide, by decide, ?_⟩
  have h := C8_language_selection frEnTracks (("EN").toList) 1
    (of_decide_eq_true rfl) (of_decide_eq_true rfl)
    (fun j hj => by
      have hj0 : j = 0 := by omega
      subst hj0
      exact (of_decide_eq_true rfl :
        lowerEq ((frEnTracks.get ⟨0, of_decide_eq_true rfl⟩).language_code)
          (("EN").toList) = false))
  exact h.trans (by decide)

theorem filterMap_duration0 (F : Segment → Option Str)
    (hF : ∀ s : Segment, F ⟨s.text, s.start, 0⟩ = F s) (items : List Segment) :
    (items.map (fun s => ⟨s.text, s.start, 0⟩)).filterMap F = items.filterMap F := by
  induction items with
  | nil => rfl
  | cons s items ih => simp only [List.map_cons, List.filterMap_cons, hF s, ih]

/-- C9: the renderer is a pure total function of its segment list and
flag — in this embedding `join_items_raw` is a total function, rendering
the same input twice yields the same output, and the output depends only
on the `text` and `start` fields (no hidden state, `duration` ignored). -/
theorem C9_render_pure (items : List Segment) (b : Bool) :
    join_items_raw items b = join_items_raw items b ∧
    join_items_raw items b =
      join_items_raw (items.map (fun s => ⟨s.text, s.start, 0⟩)) b := by
  refine ⟨rfl, ?_⟩
  cases b
  · exact (congrArg (fun l => strip (joinNL l))
      (filterMap_duration0
        (fun it => if (strip it.text).isEmpty then none else some (strip it.text))
        (fun s => rfl) items)).symm
  · exact (congrArg (fun l => strip (joinNL l))
      (filterMap_duration0
        (fun it => if (strip it.text).isEmpty then none
          else some (strip (fmt_time it.start ++ (" - ").toList ++ it.text)))
        (fun s => rfl) items)).symm

/-- C10: a negative explicit index within `-n ≤ i < 0` does not fail:
Python list indexing semantics make the selection step return the track
at position `n + i` (for example `index = -1` selects the last track). -/
theorem C10_negative_index (ts : List Track) (i : ℤ) (h1 : -(ts.length : ℤ) ≤ i)
    (h2 : i < 0) :
    selectTrack ts (some i) none = .ok (ts.get ⟨(i + ts.length).toNat, by omega⟩) := by
  show pyIndex ts i = _
  exact pyIndex_neg ts i h1 h2

/-- C3 (counterexample): extraction succeeds through the short-link rule
on `https://youtu.be/abc` and returns `"abc"`, a three-character string —
the capture `([^?&#/]+)` enforces neither the 11-character length nor the
`[A-Za-z0-9_-]` alphabet. -/
theorem C3_id_shape_counterexample :
    extract_video_id (("https://youtu.be/abc").toList) = .ok (("abc").toList) ∧
    (("abc").toList).length ≠ 11 := by
  refine ⟨by decide, by decide⟩

/-- C3 (amended): when extraction succeeds via the bare-id rule the
returned identifier is the input itself, which is either exactly 11
characters drawn from `[A-Za-z0-9_-]`, or those 11 characters followed by
one trailing newline — the rule's `$` anchor, Python semantics, also
matches just before a single final `'\n'`; the URL rules return the
captured run without length or alphabet validation. -/
theorem C3_id_shape_amended (url : Str) (h : bareId url = true) :
    extract_video_id url = .ok url ∧
    ((url.length = 11 ∧ url.all idChar = true) ∨
     (url.length = 12 ∧ (url.take 11).all idChar = true ∧
      url.getLast? = some '\n')) := by
  refine ⟨extract_bare url h, ?_⟩
  obtain ⟨hc, hd⟩ := bareId_parts url h
  obtain ⟨hlen, hall⟩ := isCleanId_spec _ hc
  have hsplit := List.take_append_drop 11 url
  rcases hd with hd | hd
  · left
    have hu : url.take 11 = url := by
      rw [hd, List.append_nil] at hsplit
      exact hsplit
    constructor
    · rw [← hu]
      exact hlen
    · rw [← hu, List.all_eq_true]
      exact hall
  · right
    have hu : url = url.take 11 ++ ['\n'] := by
      rw [hd] at hsplit
      exact hsplit.symm
    refine ⟨?_, ?_, ?_⟩
    · rw [hu, List.length_append, hlen]
      decide
    · rw [List.all_eq_true]
      exact hall
    · rw [hu]
      exact List.getLast?_concat _

theorem C3_id_shape_amended_witness :
    bareId (("dQw4w9WgXcQ").toList) = true ∧
    extract_video_id (("dQw4w9WgXcQ").toList) = .ok (("dQw4w9WgXcQ").toList) ∧
    bareId (("dQw4w9WgXcQ").toList ++ ['\n']) = true ∧
    extract_video_id (("dQw4w9WgXcQ").toList ++ ['\n']) =
      .ok ((("dQw4w9WgXcQ").toList ++ ['\n'])) :=
  ⟨by decide, (C3_id_shape_amended (("dQw4w9WgXcQ").toList) (by decide)).1,
   by decide, (C3_id_shape_amended ((("dQw4w9WgXcQ").toList ++ ['\n'])) (by decide)).1⟩

/-- C7: for every 11-character identifier over `[A-Za-z0-9_-]`, extraction
returns that identical identifier from the short-link form, the canonical
`/watch?v=` form (with and without an extra query parameter), the embed
form, and the bare-id input itself; the rules are tried in the stated
order, the short-link rule first and the bare-id passthrough last. -/
theorem C7_extract_forms (id : Str) (h : isCleanId id = true) :
    extract_video_id (("https://youtu.be/").toList ++ id) = .ok id ∧
    extract_video_id (("https://www.youtube.com/watch?v=").toList ++ id) = .ok id ∧
    extract_video_id
      (("https://www.youtube.com/watch?v=").toList ++ id ++ ("&t=5").toList) = .ok id ∧
    extract_video_id (("https://www.youtube.com/embed/").toList ++ id) = .ok id ∧
    extract_video_id id = .ok id := by
  refine ⟨extract_short id h, ?_, ?_, extract_embed id h,
    extract_bare id (bareId_of_clean id h)⟩
  · have hw := extract_watch id [] h (by simp) (Or.inl rfl)
    simpa using hw
  · have hx : ∀ c ∈ (("&t=5").toList), ¬ c = '#' := by
      intro c hc
      rcases (by simpa using hc : c = '&' ∨ c = 't' ∨ c = '=' ∨ c = '5') with
        rfl | rfl | rfl | rfl <;> decide
    have hw := extract_watch id (("&t=5").toList) h hx (Or.inr ⟨("t=5").toList, rfl⟩)
    rw [List.append_assoc]
    exact hw

theorem C7_extract_forms_witness :
    isCleanId (("dQw4w9WgXcQ").toList) = true ∧
    extract_video_id (("https://youtu.be/dQw4w9WgXcQ").toList) =
      .ok (("dQw4w9WgXcQ").toList) := by
  refine ⟨by decide, ?_⟩
  have h := (C7_extract_forms (("dQw4w9WgXcQ").toList) (by decide)).1
  rw [show ("https://youtu.be/dQw4w9WgXcQ").toList
    = ("https://youtu.be/").toList ++ ("dQw4w9WgXcQ").toList from rfl]
  exact h

theorem C10_negative_index_witness :
    -(sampleTracks.length : ℤ) ≤ -1 ∧
    selectTrack sampleTracks (some (-1)) none =
      .ok ⟨("de").toList, ("German").toList, true⟩ := by
  refine ⟨by decide, ?_⟩
  have h := C10_negative_index sampleTracks (-1) (by decide) (by decide)
  exact h.trans (by decide)

end CapGrab
